import Mathlib

/-
Verification of the AIMS library (src/aims/aims.py): an interface for
fetching all features of an ArcGIS REST API Map Service layer via paginated
queries, merging the pages into one feature collection, and handing the
result to a GeoDataFrame for export.

The Python code is shallowly embedded below.  Strings are modelled as
`List Char`; Python `str` methods (`split`, `join`, `int()` parsing) are
given executable models; the HTTP layer is modelled as an oracle function
from request parameters to responses.
-/

namespace AIMS

/-! ## Modelling Python `int(s)` (used by `_validate_url`)

CPython `int(str)` accepts optional surrounding whitespace, an optional
sign, and a nonempty digit string in which single underscores may appear
between digits.  We model the ASCII fragment of this. -/

def isPyDigit (c : Char) : Bool := '0' ≤ c && c ≤ '9'

def isPySpace (c : Char) : Bool :=
  c = ' ' || c = '\t' || c = '\n' || c = '\r' || c = '\x0b' || c = '\x0c'

/-- Accumulates the remaining digits of an integer literal, allowing a
single underscore between two digits (CPython grammar `digit (["_"] digit)*`). -/
def digitsToNat (acc : Nat) : List Char → Option Nat
  | [] => some acc
  | '_' :: c :: rest =>
      if isPyDigit c then digitsToNat (10 * acc + (c.toNat - 48)) rest else none
  | c :: rest =>
      if isPyDigit c then digitsToNat (10 * acc + (c.toNat - 48)) rest else none

/-- Parses a nonempty digit string (first character must be a digit). -/
def parseDigits : List Char → Option Nat
  | [] => none
  | c :: rest => if isPyDigit c then digitsToNat (c.toNat - 48) rest else none

/-- Model of Python `int(s)`: strip whitespace, optional sign, digits.
`int(split_path[i])` in `_validate_url` succeeds exactly when this
returns `some`. -/
def pyParseInt (cs : List Char) : Option Int :=
  let stripped := ((cs.dropWhile isPySpace).reverse.dropWhile isPySpace).reverse
  match stripped with
  | '-' :: rest => (parseDigits rest).map (fun n => -(n : Int))
  | '+' :: rest => (parseDigits rest).map (fun n => (n : Int))
  | rest => (parseDigits rest).map (fun n => (n : Int))

/-! ## Modelling Python `str.split("/")` and `"/".join` -/

/-- Model of Python `path.split("/")`: splits at every `'/'`, keeping empty
components; `"".split("/") == [""]`. -/
def splitSlash : List Char → List (List Char)
  | [] => [[]]
  | c :: rest =>
      if c = '/' then [] :: splitSlash rest
      else
        match splitSlash rest with
        | [] => [[c]]
        | s :: ss => (c :: s) :: ss

/-- Model of Python `"/".join(parts)`. -/
def joinSlash : List (List Char) → List Char
  | [] => []
  | [s] => s
  | s :: ss => s ++ '/' :: joinSlash ss

/-! ## `AIMS._validate_url` (aims.py lines 107-139)

The Python code receives `urlparse(url)`; we model the already-parsed
`(scheme, netloc, path)` triple (`urlparse` is an external collaborator).
The loop `for i in range(-1, -1 * len(split_path), -1)` scans the negative
indices `-1 .. -(len-1)`, i.e. positive indices `len-1` down to `1`; we
model it with a countdown helper. -/

/-- The scan of `_validate_url`: tries `int(split_path[j])` for
`j = hi, hi-1, ..., 1` (index `0` is never scanned, mirroring
`range(-1, -1 * len(split_path), -1)`), returning the first (largest)
index whose segment parses. -/
def findLayerGo (sp : List (List Char)) : Nat → Option Nat
  | 0 => none
  | j + 1 =>
      if (pyParseInt (sp.getD (j + 1) [])).isSome then some (j + 1)
      else findLayerGo sp j

def findLayer (sp : List (List Char)) : Option Nat :=
  findLayerGo sp (sp.length - 1)

/-- The `ValueError` message raised by `_validate_url`. -/
def urlErrorMsg : List Char :=
  ("Unable to validate URL. Should be URL of format: https://<ARCGIS_SERVER>/arcgis/rest/services/<FOLDER(S)>/MapServer/<LAYER_NUMBER>").toList

/-- Model of `AIMS._validate_url`.  On finding the last integer segment at
(positive) index `j`: if it is the final segment (`i + 1 == 0` in Python,
i.e. `j + 1 = len`), return scheme + "://" + netloc + the whole joined
path; otherwise return scheme + "://" + netloc + the join of
`split_path[: i + 1]` (i.e. `take (j + 1)`).  Otherwise raise `ValueError`. -/
def validate_url (scheme netloc path : List Char) : Except (List Char) (List Char) :=
  let split_path := splitSlash path
  match findLayer split_path with
  | some j =>
      if j + 1 = split_path.length then
        Except.ok (scheme ++ "://".toList ++ netloc ++ joinSlash split_path)
      else
        Except.ok (scheme ++ "://".toList ++ netloc ++ joinSlash (split_path.take (j + 1)))
  | none => Except.error urlErrorMsg

/-- `self.query_url = self.url + "/Query"` (aims.py line 48). -/
def query_url (u : List Char) : List Char := u ++ "/Query".toList

/-! ## Page planning (aims.py lines 71-74)

`self._request_urls = [(i, self.max_record_count)
                       for i in range(0, self.n_records, self.max_record_count)]`

Python `range(start, stop, step)` with positive step yields
`start, start+step, ...` while the value is `< stop`.  We model the range
object with a fuel-based loop (`fuel = stop - start` bounds the number of
iterations once `step ≥ 1`); Python raises `ValueError` on `step = 0`, so
all theorems assume a positive step. -/

def rangeGo (step : Nat) : Nat → Nat → Nat → List Nat
  | 0, _, _ => []
  | fuel + 1, cur, stop =>
      if cur < stop then cur :: rangeGo step fuel (cur + step) stop else []

def rangeList (start stop step : Nat) : List Nat :=
  if 0 < step then rangeGo step (stop - start) start stop else []

/-- Model of the `_request_urls` list comprehension. -/
def request_urls (n_records max_record_count : Nat) : List (Nat × Nat) :=
  (rangeList 0 n_records max_record_count).map (fun i => (i, max_record_count))

/-! ## Page responses and the merge loop (aims.py lines 89-96)

A page response's parsed JSON is modelled by its `"features"` array.
The merge loop takes `initial_json["features"]` of response 0 and appends
each later response's `"features"` (the in-place `+=` makes
`self.data["features"]` the full concatenation).  An empty response list
raises `IndexError` at `self._raw_responses[0]`, modelled by `none`. -/

structure PageJson (α : Type) where
  features : List α
  deriving DecidableEq

def merge_features {α : Type} : List (PageJson α) → Option (List α)
  | [] => none
  | r :: rest => some (rest.foldl (fun acc resp => acc ++ resp.features) r.features)

/-! ## Concurrent and sequential fetching (aims.py lines 77-87)

Sequential mode is `list(map(self._make_single_request, self._request_urls))`.
Concurrent mode is `list(executor.map(...))`: each plan entry runs as a
task; tasks may *complete* in any order (the `schedule`, a permutation of
the plan indices), but `executor.map` hands results back indexed by plan
position — modelled by tasks writing into a pre-sized slot array at their
own index, read out in index order after all complete. -/

def sequential_run {α : Type} (fetch : Nat × Nat → PageJson α)
    (plan : List (Nat × Nat)) : List (PageJson α) :=
  plan.map fetch

/-- One task completing: writes its page result into its own slot. -/
def run_task {α : Type} (fetch : Nat × Nat → PageJson α) (plan : List (Nat × Nat))
    (slots : List (Option (PageJson α))) (j : Nat) : List (Option (PageJson α)) :=
  match plan[j]? with
  | some p => slots.set j (some (fetch p))
  | none => slots

/-- Concurrent execution: tasks complete in `schedule` order, each writing
its slot; the coordinator then reads the slots in plan-index order. -/
def concurrent_run {α : Type} (fetch : Nat × Nat → PageJson α)
    (plan : List (Nat × Nat)) (schedule : List Nat) : List (PageJson α) :=
  (schedule.foldl (run_task fetch plan) (List.replicate plan.length none)).filterMap id

/-! ## Failure propagation (aims.py lines 77-96 with a raising `get`)

`_make_single_request` performs a single `get` with no error handling: a
network failure raises, aborting the whole `__init__` (sequential `map`
raises at the failing page; `executor.map` re-raises the first failing
page in plan order when its result is iterated).  Page fetching is
modelled as an oracle returning `Except`: the run of all pages propagates
the first error in plan order and otherwise merges. -/

structure PageError where
  offset : Nat
  deriving DecidableEq

def run_pages {ε α : Type} (fetch : Nat × Nat → Except ε (PageJson α)) :
    List (Nat × Nat) → Except ε (List (PageJson α))
  | [] => Except.ok []
  | p :: ps =>
      match fetch p with
      | Except.error e => Except.error e
      | Except.ok r =>
          match run_pages fetch ps with
          | Except.error e => Except.error e
          | Except.ok rs => Except.ok (r :: rs)

def fetch_all {ε α : Type} (fetch : Nat × Nat → Except ε (PageJson α))
    (plan : List (Nat × Nat)) : Except ε (Option (List α)) :=
  match run_pages fetch plan with
  | Except.error e => Except.error e
  | Except.ok rs => Except.ok (merge_features rs)

/-! ## `AIMS._make_single_request` (aims.py lines 194-220)

Builds the parameter dict and performs exactly one `get(self.query_url,
params=params)`.  We model the single request it issues as a record of
the target URL and the ordered parameter list (string or int values, as
in the Python dict). -/

inductive PVal
  | str (s : String)
  | int (n : Nat)
  deriving DecidableEq

/-- The recognized query options read from kwargs (aims.py lines 51-59). -/
structure QueryParams where
  where_ : String
  text : String
  objectIds : String
  geometry : String
  geometryType : String
  inSR : String
  spatialRel : String
  outFields : String
  outSR : String
  deriving DecidableEq

/-- The kwargs defaults: `where="1=1"`, `outFields="*"`, all others `""`. -/
def defaultQueryParams : QueryParams :=
  ⟨"1=1", "", "", "", "", "", "", "*", ""⟩

structure Request where
  url : String
  params : List (String × PVal)
  deriving DecidableEq

/-- Model of `_make_single_request`: the one GET it issues, with the
parameter dict in source order.  Note the dict omits `objectIds`. -/
def make_single_request (qp : QueryParams) (q_url : String)
    (pagination_params : Nat × Nat) : Request :=
  { url := q_url,
    params := [("where", PVal.str qp.where_),
               ("text", PVal.str qp.text),
               ("geometry", PVal.str qp.geometry),
               ("geometryType", PVal.str qp.geometryType),
               ("inSR", PVal.str qp.inSR),
               ("spatialRel", PVal.str qp.spatialRel),
               ("outFields", PVal.str qp.outFields),
               ("outSR", PVal.str qp.outSR),
               ("resultOffset", PVal.int pagination_params.1),
               ("resultRecordCount", PVal.int pagination_params.2),
               ("f", PVal.str "geojson")] }

/-! ## The CRS handed to `GeoDataFrame.from_features` (aims.py lines 99-105) -/

/-- The `crs` argument of the export step: the configured `outSR` when
nonempty, else the literal `4236` from the source. -/
def gdf_crs (outSR : String) : PVal :=
  if outSR ≠ "" then PVal.str outSR else PVal.int 4236

/-! ## Lemmas about the page plan -/

/-- Spec-side page plan, following the spec's words: "emits
(offset, maxPageSize) for offset = 0, maxPageSize, 2·maxPageSize, …
while offset < totalRecords" — i.e. the offsets `k * m` with `k * m < n`,
of which there are `⌈n / m⌉ = (n + m - 1) / m`. -/
def spec_page_plan (totalRecords maxPageSize : Nat) : List (Nat × Nat) :=
  (List.range ((totalRecords + maxPageSize - 1) / maxPageSize)).map
    (fun k => (k * maxPageSize, maxPageSize))

lemma rangeGo_spec (step : Nat) (hs : 0 < step) :
    ∀ (fuel cur stop : Nat), stop ≤ cur + fuel →
      rangeGo step fuel cur stop
        = (List.range ((stop - cur + step - 1) / step)).map (fun k => cur + k * step) := by
  intro fuel
  induction fuel with
  | zero =>
      intro cur stop h
      have h0 : stop - cur = 0 := by omega
      have h1 : (stop - cur + step - 1) / step = 0 := by
        rw [h0]; exact Nat.div_eq_of_lt (by omega)
      simp [rangeGo, h1]
  | succ n ih =>
      intro cur stop h
      by_cases hlt : cur < stop
      · rw [rangeGo, if_pos hlt, ih (cur + step) stop (by omega)]
        have hcount : (stop - cur + step - 1) / step
            = (stop - (cur + step) + step - 1) / step + 1 := by
          rcases le_or_lt (cur + step) stop with h1 | h2
          · have e : stop - cur + step - 1 = (stop - (cur + step) + step - 1) + step := by
              omega
            rw [e, Nat.add_div_right _ hs]
          · have e1 : stop - (cur + step) + step - 1 = step - 1 := by omega
            have e2 : stop - cur + step - 1 = (stop - cur - 1) + step := by omega
            rw [e1, e2, Nat.add_div_right _ hs,
              Nat.div_eq_of_lt (by omega : stop - cur - 1 < step),
              Nat.div_eq_of_lt (by omega : step - 1 < step)]
        rw [hcount, List.range_succ_eq_map]
        simp only [List.map_cons, List.map_map, Nat.zero_mul, Nat.add_zero]
        refine congrArg (cur :: ·) (List.map_congr_left ?_)
        intro k _
        simp only [Function.comp_apply, Nat.succ_eq_add_one]
        ring
      · rw [rangeGo, if_neg hlt]
        have h1 : (stop - cur + step - 1) / step = 0 := by
          have h0 : stop - cur = 0 := by omega
          rw [h0]; exact Nat.div_eq_of_lt (by omega)
        simp [h1]

lemma rangeList_spec (start stop step : Nat) (hs : 0 < step) :
    rangeList start stop step
      = (List.range ((stop - start + step - 1) / step)).map (fun k => start + k * step) := by
  rw [rangeList, if_pos hs]
  exact rangeGo_spec step hs (stop - start) start stop (by omega)

/-- C1, original claim is false at totalRecords = 0, maxPageSize = 100:
the plan is empty, not a single entry at offset 0. -/
theorem request_urls_zero_records_counterexample :
    request_urls 0 100 = [] ∧ ¬ (request_urls 0 100).length = 1 := by
  constructor
  · rfl
  · decide

/-- C1 (amended): for every positive maxPageSize, when totalRecords is 0
the page plan is empty — an empty service triggers zero page requests —
and the subsequent merge of the (empty) response list fails rather than
yielding a well-formed empty feature collection. -/
theorem request_urls_zero_records (m : Nat) (fetch : Nat × Nat → PageJson Nat)
    (hm : 0 < m) :
    request_urls 0 m = [] ∧
      merge_features (sequential_run fetch (request_urls 0 m)) = none := by
  have hempty : request_urls 0 m = [] := by
    rw [request_urls, rangeList_spec 0 0 m hm,
      Nat.div_eq_of_lt (by omega : 0 - 0 + m - 1 < m)]
    simp
  refine ⟨hempty, ?_⟩
  rw [hempty]
  rfl

theorem request_urls_zero_records_witness :
    request_urls 0 100 = [] ∧
      merge_features (sequential_run (fun p => ⟨[p.1]⟩) (request_urls 0 100)) = none :=
  request_urls_zero_records 100 (fun p => ⟨[p.1]⟩) (by decide)

/-- C4: for positive totalRecords and maxPageSize, the page plan is the
ordered sequence of pairs (k·maxPageSize, maxPageSize) for the offsets
k·maxPageSize < totalRecords, and in particular totalRecords = 250 with
maxPageSize = 100 yields exactly [(0,100),(100,100),(200,100)]. -/
theorem request_urls_is_spec_plan (n m : Nat) (hn : 0 < n) (hm : 0 < m) :
    request_urls n m = spec_page_plan n m ∧
      request_urls 250 100 = [(0, 100), (100, 100), (200, 100)] := by
  constructor
  · rw [request_urls, rangeList_spec 0 n m hm, spec_page_plan]
    simp [List.map_map, Function.comp]
  · decide

theorem request_urls_is_spec_plan_witness :
    request_urls 250 100 = spec_page_plan 250 100 ∧
      request_urls 250 100 = [(0, 100), (100, 100), (200, 100)] :=
  request_urls_is_spec_plan 250 100 (by decide) (by decide)

/-! ## Lemmas about the merge loop -/

lemma merge_foldl_eq {α : Type} (rest : List (PageJson α)) :
    ∀ acc : List α,
      rest.foldl (fun acc resp => acc ++ resp.features) acc
        = acc ++ (rest.map PageJson.features).flatten := by
  induction rest with
  | nil => intro acc; simp
  | cons r rest ih =>
      intro acc
      simp only [List.foldl_cons, List.map_cons, List.flatten_cons]
      rw [ih (acc ++ r.features), List.append_assoc]

/-- C3: merging a nonempty list of page responses (in plan order) yields
exactly the concatenation of the pages' feature arrays in that order, and
its length is the sum of the page feature-array lengths. -/
theorem merge_features_concat {α : Type} (rs : List (PageJson α)) (h : rs ≠ []) :
    merge_features rs = some ((rs.map PageJson.features).flatten) ∧
      ((rs.map PageJson.features).flatten).length
        = (rs.map (fun r => r.features.length)).sum := by
  constructor
  · match rs, h with
    | r :: rest, _ =>
        rw [merge_features, merge_foldl_eq rest r.features]
        simp
  · rw [List.length_flatten, List.map_map]
    rfl

theorem merge_features_concat_witness :
    merge_features ([⟨[1, 2]⟩, ⟨[3]⟩, ⟨[4, 5, 6]⟩] : List (PageJson Nat))
        = some (([⟨[1, 2]⟩, ⟨[3]⟩, ⟨[4, 5, 6]⟩].map PageJson.features).flatten) ∧
      (([(⟨[1, 2]⟩ : PageJson Nat), ⟨[3]⟩, ⟨[4, 5, 6]⟩].map PageJson.features).flatten).length
        = ([(⟨[1, 2]⟩ : PageJson Nat), ⟨[3]⟩, ⟨[4, 5, 6]⟩].map
            (fun r => r.features.length)).sum :=
  merge_features_concat [⟨[1, 2]⟩, ⟨[3]⟩, ⟨[4, 5, 6]⟩] (by decide)

/-! ## Concurrent / sequential equivalence -/

lemma run_task_length {α : Type} (fetch : Nat × Nat → PageJson α)
    (plan : List (Nat × Nat)) (s : List (Option (PageJson α))) (j : Nat) :
    (run_task fetch plan s j).length = s.length := by
  rw [run_task]
  cases plan[j]? <;> simp

lemma foldl_run_task_length {α : Type} (fetch : Nat × Nat → PageJson α)
    (plan : List (Nat × Nat)) :
    ∀ (sch : List Nat) (s : List (Option (PageJson α))),
      (sch.foldl (run_task fetch plan) s).length = s.length := by
  intro sch
  induction sch with
  | nil => intro s; rfl
  | cons j tl ih =>
      intro s
      rw [List.foldl_cons, ih, run_task_length]

lemma foldl_run_task_getElem {α : Type} (fetch : Nat × Nat → PageJson α)
    (plan : List (Nat × Nat)) :
    ∀ (sch : List Nat) (s : List (Option (PageJson α))),
      s.length = plan.length → (∀ j ∈ sch, j < plan.length) →
      ∀ i, i < plan.length →
        (sch.foldl (run_task fetch plan) s)[i]?
          = if i ∈ sch then some (some (fetch (plan.getD i (0, 0)))) else s[i]? := by
  intro sch
  induction sch with
  | nil => intro s _ _ i _; simp
  | cons j tl ih =>
      intro s hs hsch i hi
      have hj : j < plan.length := hsch j (by simp)
      have hpj : plan[j]? = some (plan.getD j (0, 0)) := by
        rw [List.getD_eq_getElem?_getD, List.getElem?_eq_getElem hj]
        rfl
      have hrt : run_task fetch plan s j
          = s.set j (some (fetch (plan.getD j (0, 0)))) := by
        rw [run_task, hpj]
      rw [List.foldl_cons, hrt,
        ih _ (by rw [List.length_set]; exact hs) (fun x hx => hsch x (by simp [hx])) i hi]
      by_cases hitl : i ∈ tl
      · simp [hitl]
      · by_cases hij : i = j
        · subst hij
          simp [hitl, List.getElem?_set, hs ▸ hi]
        · rw [if_neg hitl, if_neg (by simp [hitl, hij]),
            List.getElem?_set, if_neg (by omega)]

lemma filterMap_id_map_some {α : Type} (l : List α) :
    (l.map some).filterMap id = l := by
  induction l with
  | nil => rfl
  | cons a l ih => simp [ih]

lemma concurrent_run_eq_sequential {α : Type} (fetch : Nat × Nat → PageJson α)
    (plan : List (Nat × Nat)) (schedule : List Nat)
    (hperm : schedule.Perm (List.range plan.length)) :
    concurrent_run fetch plan schedule = sequential_run fetch plan := by
  have hsch : ∀ j ∈ schedule, j < plan.length := by
    intro j hj
    have := hperm.mem_iff.mp hj
    simpa [List.mem_range] using this
  have hmem : ∀ i, i < plan.length → i ∈ schedule := by
    intro i hi
    exact hperm.mem_iff.mpr (by simpa [List.mem_range] using hi)
  have hslots :
      schedule.foldl (run_task fetch plan) (List.replicate plan.length none)
        = plan.map (fun p => some (fetch p)) := by
    apply List.ext_getElem?
    intro i
    by_cases hi : i < plan.length
    · rw [foldl_run_task_getElem fetch plan schedule _ (by simp) hsch i hi,
        if_pos (hmem i hi), List.getElem?_map, List.getElem?_eq_getElem hi]
      simp [List.getD_eq_getElem?_getD, List.getElem?_eq_getElem hi]
    · rw [List.getElem?_eq_none (by rw [foldl_run_task_length]; simp; omega),
        List.getElem?_eq_none (by simp; omega)]
  have hms : List.map (fun p => some (fetch p)) plan = (plan.map fetch).map some := by
    rw [List.map_map]; rfl
  rw [concurrent_run, hslots, sequential_run, hms, filterMap_id_map_some]

/-- C2: for every plan, every fixed mapping from (offset, pageSize) pairs
to page responses, and every completion order of the concurrent tasks (a
permutation of the plan indices), the concurrent fetch and the sequential
fetch produce identical merged feature collections. -/
theorem concurrent_matches_sequential {α : Type} (fetch : Nat × Nat → PageJson α)
    (plan : List (Nat × Nat)) (schedule : List Nat)
    (hperm : schedule.Perm (List.range plan.length)) :
    merge_features (concurrent_run fetch plan schedule)
      = merge_features (sequential_run fetch plan) := by
  rw [concurrent_run_eq_sequential fetch plan schedule hperm]

theorem concurrent_matches_sequential_witness :
    ([2, 0, 1] : List Nat).Perm
        (List.range ([(0, 2), (2, 2), (4, 2)] : List (Nat × Nat)).length) ∧
      merge_features (concurrent_run (fun p => ⟨[p.1, p.1 + 1]⟩)
          [(0, 2), (2, 2), (4, 2)] [2, 0, 1])
        = merge_features (sequential_run (fun p => (⟨[p.1, p.1 + 1]⟩ : PageJson Nat))
            [(0, 2), (2, 2), (4, 2)]) :=
  ⟨by decide,
   concurrent_matches_sequential (fun p => ⟨[p.1, p.1 + 1]⟩)
     [(0, 2), (2, 2), (4, 2)] [2, 0, 1] (by decide)⟩

/-! ## Failure propagation -/

lemma run_pages_all_ok_prefix {ε α : Type} (fetch : Nat × Nat → Except ε (PageJson α))
    (e : ε) :
    ∀ (pre : List (Nat × Nat)) (rest : List (Nat × Nat)),
      (∀ p ∈ pre, (fetch p).isOk = true) →
      run_pages fetch rest = Except.error e →
      run_pages fetch (pre ++ rest) = Except.error e := by
  intro pre
  induction pre with
  | nil => intro rest _ hrest; simpa using hrest
  | cons q pre ih =>
      intro rest hok hrest
      have hq : (fetch q).isOk = true := hok q (by simp)
      rw [List.cons_append, run_pages]
      match hfq : fetch q with
      | Except.error e' => rw [hfq] at hq; simp [Except.isOk, Except.toBool] at hq
      | Except.ok r =>
          rw [ih rest (fun p hp => hok p (by simp [hp])) hrest]

/-- C5: if the pages before plan position `(o, c)` all succeed and the
page fetch at `(o, c)` fails with error `e`, then — given that the page
fetcher's errors reference the offset of the request that raised them —
the whole fetch fails with that error, which carries the failing page's
offset, and no (partial) feature collection is returned. -/
theorem page_failure_aborts_fetch {α : Type}
    (fetch : Nat × Nat → Except PageError (PageJson α))
    (pre post : List (Nat × Nat)) (o c : Nat) (e : PageError)
    (hoff : ∀ o' c' e', fetch (o', c') = Except.error e' → e'.offset = o')
    (hpre : ∀ p ∈ pre, (fetch p).isOk = true)
    (hfail : fetch (o, c) = Except.error e) :
    fetch_all fetch (pre ++ (o, c) :: post) = Except.error e ∧ e.offset = o := by
  have hrest : run_pages fetch ((o, c) :: post) = Except.error e := by
    rw [run_pages, hfail]
  have hall : run_pages fetch (pre ++ (o, c) :: post) = Except.error e :=
    run_pages_all_ok_prefix fetch e pre ((o, c) :: post) hpre hrest
  constructor
  · rw [fetch_all, hall]
  · exact hoff o c e hfail

/-- A concrete page fetcher that fails at offset 100 (the spec's
simulated network error on the 250-record, 100-per-page plan). -/
def crashFetch : Nat × Nat → Except PageError (PageJson Nat) :=
  fun p => if p.1 = 100 then Except.error ⟨100⟩ else Except.ok ⟨[p.1]⟩

theorem page_failure_aborts_fetch_witness :
    fetch_all crashFetch ([(0, 100)] ++ (100, 100) :: [(200, 100)])
        = Except.error ⟨100⟩ ∧ (⟨100⟩ : PageError).offset = 100 :=
  page_failure_aborts_fetch crashFetch [(0, 100)] [(200, 100)] 100 100 ⟨100⟩
    (by
      intro o' c' e' h
      rw [crashFetch] at h
      by_cases ho : o' = 100
      · subst ho
        simp only [if_pos rfl] at h
        cases h
        rfl
      · simp [ho] at h)
    (by decide)
    (by rfl)

/-! ## The single page request -/

/-- C9 (amended): each plan entry triggers exactly one GET against the
query endpoint; its parameter set contains the recognized query options
where, text, geometry, geometryType, inSR, spatialRel, outFields and
outSR from the session's QueryParameters plus resultOffset = offset,
resultRecordCount = pageSize and the GeoJSON output format — but not
objectIds, which is read from the configuration and never sent. -/
theorem make_single_request_params (qp : QueryParams) (u : String) (o c : Nat) :
    (make_single_request qp u (o, c)).url = u ∧
      ((make_single_request qp u (o, c)).params.lookup "where"
          = some (PVal.str qp.where_) ∧
        (make_single_request qp u (o, c)).params.lookup "text"
          = some (PVal.str qp.text) ∧
        (make_single_request qp u (o, c)).params.lookup "geometry"
          = some (PVal.str qp.geometry) ∧
        (make_single_request qp u (o, c)).params.lookup "geometryType"
          = some (PVal.str qp.geometryType) ∧
        (make_single_request qp u (o, c)).params.lookup "inSR"
          = some (PVal.str qp.inSR) ∧
        (make_single_request qp u (o, c)).params.lookup "spatialRel"
          = some (PVal.str qp.spatialRel) ∧
        (make_single_request qp u (o, c)).params.lookup "outFields"
          = some (PVal.str qp.outFields) ∧
        (make_single_request qp u (o, c)).params.lookup "outSR"
          = some (PVal.str qp.outSR) ∧
        (make_single_request qp u (o, c)).params.lookup "resultOffset"
          = some (PVal.int o) ∧
        (make_single_request qp u (o, c)).params.lookup "resultRecordCount"
          = some (PVal.int c) ∧
        (make_single_request qp u (o, c)).params.lookup "f"
          = some (PVal.str "geojson")) ∧
      (make_single_request qp u (o, c)).params.lookup "objectIds" = none := by
  refine ⟨rfl, ⟨?_, ?_, ?_, ?_, ?_, ?_, ?_, ?_, ?_, ?_, ?_⟩, ?_⟩ <;>
    simp [make_single_request, List.lookup]

/-- C9, original claim is false: even with a nonempty `objectIds`
configured, the request's parameter set does not contain `objectIds`. -/
theorem make_single_request_objectIds_counterexample :
    (⟨"1=1", "", "1,2,3", "", "", "", "", "*", ""⟩ : QueryParams).objectIds = "1,2,3" ∧
      (make_single_request ⟨"1=1", "", "1,2,3", "", "", "", "", "*", ""⟩
          "https://host/MapServer/2/Query" (0, 100)).params.lookup "objectIds"
        = none := by
  constructor
  · rfl
  · rfl

/-! ## The CRS handed to the export layer -/

/-- C10: with `outSR` unset the code passes the literal `4236` as the CRS
to `GeoDataFrame.from_features` — not EPSG:4326 (WGS84) as documented —
while a set `outSR` is passed through unchanged. -/
theorem gdf_crs_default_is_4236 :
    gdf_crs "" = PVal.int 4236 ∧ gdf_crs "4326" = PVal.str "4326" ∧
      gdf_crs "" ≠ PVal.int 4326 := by
  refine ⟨rfl, rfl, ?_⟩
  decide

/-! ## Lemmas about splitting and joining paths -/

lemma splitSlash_ne_nil (cs : List Char) : splitSlash cs ≠ [] := by
  cases cs with
  | nil => simp [splitSlash]
  | cons c rest =>
      rw [splitSlash]
      by_cases hc : c = '/'
      · simp [hc]
      · rw [if_neg hc]
        cases h : splitSlash rest <;> simp

lemma splitSlash_no_slash :
    ∀ (cs : List Char) (s : List Char), s ∈ splitSlash cs → '/' ∉ s := by
  intro cs
  induction cs with
  | nil =>
      intro s hs
      rw [splitSlash] at hs
      have hs' : s = [] := List.mem_singleton.mp hs
      subst hs'
      exact List.not_mem_nil '/'
  | cons c rest ih =>
      intro s hs
      rw [splitSlash] at hs
      by_cases hc : c = '/'
      · rw [if_pos hc] at hs
        rcases List.mem_cons.mp hs with h | h
        · simp [h]
        · exact ih s h
      · rw [if_neg hc] at hs
        cases hsp : splitSlash rest with
        | nil => exact absurd hsp (splitSlash_ne_nil rest)
        | cons t ts =>
            rw [hsp] at hs
            rcases List.mem_cons.mp hs with h | h
            · subst h
              intro hmem
              rcases List.mem_cons.mp hmem with h' | h'
              · exact hc h'.symm
              · exact ih t (by rw [hsp]; exact List.mem_cons_self t ts) h'
            · exact ih s (by rw [hsp]; exact List.mem_cons_of_mem t h)

lemma joinSlash_cons (a : List Char) (l : List (List Char)) (h : l ≠ []) :
    joinSlash (a :: l) = a ++ '/' :: joinSlash l := by
  cases l with
  | nil => exact absurd rfl h
  | cons b t => rfl

lemma join_split (cs : List Char) : joinSlash (splitSlash cs) = cs := by
  induction cs with
  | nil => rfl
  | cons c rest ih =>
      rw [splitSlash]
      by_cases hc : c = '/'
      · rw [if_pos hc, joinSlash_cons [] (splitSlash rest) (splitSlash_ne_nil rest), ih, hc]
        rfl
      · rw [if_neg hc]
        cases hsp : splitSlash rest with
        | nil => exact absurd hsp (splitSlash_ne_nil rest)
        | cons t ts =>
            rw [hsp] at ih
            cases ts with
            | nil =>
                have ht : t = rest := ih
                rw [← ht]
                rfl
            | cons t2 ts2 =>
                calc joinSlash ((c :: t) :: t2 :: ts2)
                    = (c :: t) ++ '/' :: joinSlash (t2 :: ts2) := rfl
                  _ = c :: joinSlash (t :: t2 :: ts2) := rfl
                  _ = c :: rest := by rw [ih]

lemma join_append_singleton :
    ∀ (l : List (List Char)) (s : List Char), l ≠ [] →
      joinSlash (l ++ [s]) = joinSlash l ++ '/' :: s := by
  intro l
  induction l with
  | nil => intro s h; exact absurd rfl h
  | cons a t ih =>
      intro s _
      cases t with
      | nil => rfl
      | cons b t2 =>
          rw [List.cons_append, joinSlash_cons a ((b :: t2) ++ [s]) (by simp),
            ih s (by simp), joinSlash_cons a (b :: t2) (by simp)]
          simp

lemma take_succ_getD (l : List (List Char)) (j : Nat) (hj : j < l.length) :
    l.take (j + 1) = l.take j ++ [l.getD j []] := by
  rw [List.take_succ, List.getElem?_eq_getElem hj, List.getD_eq_getElem?_getD,
    List.getElem?_eq_getElem hj]
  rfl

/-! ## Lemmas about the layer-number scan -/

lemma findLayerGo_some (sp : List (List Char)) :
    ∀ j J, findLayerGo sp j = some J →
      1 ≤ J ∧ J ≤ j ∧ (pyParseInt (sp.getD J [])).isSome = true := by
  intro j
  induction j with
  | zero => intro J h; simp [findLayerGo] at h
  | succ j ih =>
      intro J h
      rw [findLayerGo] at h
      by_cases hp : (pyParseInt (sp.getD (j + 1) [])).isSome = true
      · rw [if_pos hp] at h
        cases h
        exact ⟨by omega, by omega, hp⟩
      · rw [if_neg hp] at h
        obtain ⟨a, b, c⟩ := ih J h
        exact ⟨a, by omega, c⟩

lemma findLayerGo_eq_of (sp : List (List Char)) (J : Nat) (h1 : 1 ≤ J)
    (h3 : (pyParseInt (sp.getD J [])).isSome = true) :
    ∀ j, J ≤ j →
      (∀ i, J < i → i ≤ j → (pyParseInt (sp.getD i [])).isSome = false) →
      findLayerGo sp j = some J := by
  intro j
  induction j with
  | zero => intro hJ _; omega
  | succ j ih =>
      intro hJ hmax
      rw [findLayerGo]
      by_cases he : J = j + 1
      · subst he
        rw [if_pos h3]
      · have hfail : (pyParseInt (sp.getD (j + 1) [])).isSome = false :=
          hmax (j + 1) (by omega) (by omega)
        rw [if_neg (by rw [hfail]; simp)]
        exact ih (by omega) (fun i hi1 hi2 => hmax i hi1 (by omega))

lemma findLayerGo_none (sp : List (List Char))
    (hall : ∀ s ∈ sp, pyParseInt s = none) :
    ∀ j, findLayerGo sp j = none := by
  intro j
  induction j with
  | zero => rfl
  | succ j ih =>
      rw [findLayerGo]
      have hfail : (pyParseInt (sp.getD (j + 1) [])).isSome = false := by
        by_cases hj : j + 1 < sp.length
        · rw [List.getD_eq_getElem?_getD, List.getElem?_eq_getElem hj, Option.getD_some,
            hall (sp[j + 1]) (List.getElem_mem hj)]
          rfl
        · rw [List.getD_eq_getElem?_getD, List.getElem?_eq_none (by omega)]
          rfl
      rw [if_neg (by rw [hfail]; simp)]
      exact ih

/-! ## The URL-validation theorems -/

/-- C7: when no path segment parses as an integer, validation fails with
the `ValueError` naming the expected URL format, returning no base URL. -/
theorem validate_url_no_integer_fails (scheme netloc path : List Char)
    (h : ∀ seg ∈ splitSlash path, pyParseInt seg = none) :
    validate_url scheme netloc path = Except.error urlErrorMsg := by
  have hf : findLayer (splitSlash path) = none :=
    findLayerGo_none (splitSlash path) h ((splitSlash path).length - 1)
  simp only [validate_url, hf]

theorem validate_url_no_integer_fails_witness :
    (∀ seg ∈ splitSlash ("/arcgis/rest/services/Folder/MapServer").toList,
        pyParseInt seg = none) ∧
      validate_url ("https").toList ("example.com").toList
          ("/arcgis/rest/services/Folder/MapServer").toList
        = Except.error urlErrorMsg :=
  ⟨by decide,
   validate_url_no_integer_fails ("https").toList ("example.com").toList
     ("/arcgis/rest/services/Folder/MapServer").toList (by decide)⟩

/-- C6, original claim is false for a URL whose only integer path segment
is the first element of the path split (the scan
`range(-1, -1 * len(split_path), -1)` never reaches index 0): the URL
`5/MapServer` contains the integer segment `5`, yet validation fails. -/
theorem validate_url_skips_first_segment_counterexample :
    ((splitSlash ("5/MapServer").toList).any
        (fun seg => (pyParseInt seg).isSome)) = true ∧
      validate_url [] [] ("5/MapServer").toList = Except.error urlErrorMsg := by
  constructor
  · decide
  · rfl

/-- C6 (amended): for every URL whose path has an integer segment at a
split position other than the first (in particular any URL whose path
starts with `/`, whose first split element is empty), validation returns
scheme + "://" + host + the path segments up to and including the last
such integer segment, dropping any trailing segments after it; and when
that integer segment is the final segment the whole path is retained
verbatim. -/
theorem validate_url_truncates_at_layer (scheme netloc path : List Char) (J : Nat)
    (h1 : 1 ≤ J) (h2 : J < (splitSlash path).length)
    (h3 : (pyParseInt ((splitSlash path).getD J [])).isSome = true)
    (hmax : ∀ j, j < (splitSlash path).length → J < j →
        (pyParseInt ((splitSlash path).getD j [])).isSome = false) :
    validate_url scheme netloc path
        = Except.ok (scheme ++ "://".toList ++ netloc
            ++ joinSlash ((splitSlash path).take (J + 1))) ∧
      (J + 1 = (splitSlash path).length →
        validate_url scheme netloc path
          = Except.ok (scheme ++ "://".toList ++ netloc ++ path)) := by
  have hfind : findLayer (splitSlash path) = some J := by
    rw [findLayer]
    exact findLayerGo_eq_of (splitSlash path) J h1 h3 ((splitSlash path).length - 1)
      (by omega) (fun i hi1 hi2 => hmax i (by omega) hi1)
  constructor
  · simp only [validate_url, hfind]
    by_cases hj : J + 1 = (splitSlash path).length
    · rw [if_pos hj, hj, List.take_length]
    · rw [if_neg hj]
  · intro hj
    simp only [validate_url, hfind, if_pos hj, join_split]

theorem validate_url_truncates_at_layer_witness :
    (1 ≤ 6 ∧
      6 < (splitSlash ("/arcgis/rest/services/Foo/MapServer/2/extra").toList).length ∧
      (pyParseInt ((splitSlash ("/arcgis/rest/services/Foo/MapServer/2/extra").toList).getD
          6 [])).isSome = true) ∧
    (validate_url ("https").toList ("example.com").toList
          ("/arcgis/rest/services/Foo/MapServer/2/extra").toList
        = Except.ok (("https").toList ++ "://".toList ++ ("example.com").toList
            ++ joinSlash
              ((splitSlash ("/arcgis/rest/services/Foo/MapServer/2/extra").toList).take
                (6 + 1))) ∧
      (6 + 1 = (splitSlash ("/arcgis/rest/services/Foo/MapServer/2/extra").toList).length →
        validate_url ("https").toList ("example.com").toList
            ("/arcgis/rest/services/Foo/MapServer/2/extra").toList
          = Except.ok (("https").toList ++ "://".toList ++ ("example.com").toList
              ++ ("/arcgis/rest/services/Foo/MapServer/2/extra").toList))) :=
  ⟨⟨by decide, by decide, by decide⟩,
   validate_url_truncates_at_layer ("https").toList ("example.com").toList
     ("/arcgis/rest/services/Foo/MapServer/2/extra").toList 6
     (by decide) (by decide) (by decide) (by decide)⟩

/-- C8, original claim is false: the validator accepts a *negative*
integer layer segment — `int("-3")` parses — so a base URL whose final
path segment is `-3` validates although `-3 < 0`. -/
theorem validate_url_negative_layer_counterexample :
    validate_url ("https").toList ("host").toList ("/MapServer/-3").toList
        = Except.ok ("https://host/MapServer/-3").toList ∧
      (splitSlash ("https://host/MapServer/-3").toList).getLastD []
        = ("-3").toList ∧
      pyParseInt ("-3").toList = some (-3) ∧ ¬ (0 : Int) ≤ -3 := by
  refine ⟨by rfl, by rfl, by decide, by decide⟩

/-- C8 (amended): every base URL produced by validation ends in `/`
followed by a slash-free path segment that parses as an integer (possibly
negative — the code does not enforce non-negativity), and the query
endpoint is the base URL with "/Query" appended. -/
theorem validate_url_invariant (scheme netloc path u : List Char)
    (h : validate_url scheme netloc path = Except.ok u) :
    (∃ pre seg k, u = pre ++ '/' :: seg ∧ '/' ∉ seg ∧ pyParseInt seg = some k) ∧
      query_url u = u ++ "/Query".toList := by
  refine ⟨?_, rfl⟩
  cases hf : findLayer (splitSlash path) with
  | none =>
      have hbad : validate_url scheme netloc path = Except.error urlErrorMsg := by
        simp only [validate_url, hf]
      rw [hbad] at h
      cases h
  | some j =>
      have hf' : findLayerGo (splitSlash path) ((splitSlash path).length - 1) = some j := hf
      obtain ⟨hj1, hjle, hpj⟩ := findLayerGo_some (splitSlash path) _ j hf'
      have hlen : 1 ≤ (splitSlash path).length :=
        List.length_pos.mpr (splitSlash_ne_nil path)
      have hjlt : j < (splitSlash path).length := by omega
      have htne : (splitSlash path).take j ≠ [] := by
        have : ((splitSlash path).take j).length = j := by
          rw [List.length_take]; omega
        intro hnil
        rw [hnil] at this
        simp at this
        omega
      have hjoin : joinSlash ((splitSlash path).take (j + 1))
          = joinSlash ((splitSlash path).take j) ++ '/' :: (splitSlash path).getD j [] := by
        rw [take_succ_getD (splitSlash path) j hjlt,
          join_append_singleton ((splitSlash path).take j) _ htne]
      have hseg : '/' ∉ (splitSlash path).getD j [] := by
        have hmem : (splitSlash path).getD j [] ∈ splitSlash path := by
          rw [List.getD_eq_getElem?_getD, List.getElem?_eq_getElem hjlt]
          exact List.getElem_mem hjlt
        exact splitSlash_no_slash path _ hmem
      obtain ⟨k, hk⟩ := Option.isSome_iff_exists.mp hpj
      have hok : validate_url scheme netloc path
          = Except.ok (scheme ++ "://".toList ++ netloc
              ++ joinSlash ((splitSlash path).take (j + 1))) := by
        simp only [validate_url, hf]
        by_cases hjfin : j + 1 = (splitSlash path).length
        · rw [if_pos hjfin, hjfin, List.take_length]
        · rw [if_neg hjfin]
      rw [hok] at h
      injection h with hA
      refine ⟨scheme ++ "://".toList ++ netloc ++ joinSlash ((splitSlash path).take j),
        (splitSlash path).getD j [], k, ?_, hseg, hk⟩
      rw [← hA, hjoin]
      simp [List.append_assoc]

theorem validate_url_invariant_witness :
    validate_url ("https").toList ("example.com").toList
        ("/arcgis/rest/services/Foo/MapServer/3").toList
      = Except.ok ("https://example.com/arcgis/rest/services/Foo/MapServer/3").toList ∧
    ((∃ pre seg k,
        ("https://example.com/arcgis/rest/services/Foo/MapServer/3").toList
            = pre ++ '/' :: seg ∧
          '/' ∉ seg ∧ pyParseInt seg = some k) ∧
      query_url ("https://example.com/arcgis/rest/services/Foo/MapServer/3").toList
        = ("https://example.com/arcgis/rest/services/Foo/MapServer/3").toList
            ++ "/Query".toList) :=
  ⟨by rfl,
   validate_url_invariant ("https").toList ("example.com").toList
     ("/arcgis/rest/services/Foo/MapServer/3").toList
     ("https://example.com/arcgis/rest/services/Foo/MapServer/3").toList (by rfl)⟩

end AIMS
